import Mathlib

/-!
Verification of the Ubitrack `utcore` hand-eye-calibration and
multi-camera pose-estimation routines.

The development shallowly embeds, over an arbitrary linearly ordered field
`K`, the functions of `src/utAlgorithm/OnlineRotHec.h`
(`performHandEyeCalibrationImp` and its helpers) and of the
multiple-camera pose-optimization translation unit
(`multipleCameraEstimatePose`, `multipleCameraPoseEstimationWithLocalBundles`).

External linear-algebra primitives that the repository consumes from its
trusted library (LAPACK dense least squares `gels`, 4x4 matrix inversion,
square root, quaternion conversions, the Levenberg-Marquardt engine and
the closed-form PnP solver) are taken as explicit function parameters,
exactly as the specification treats them: consumed interfaces, not code
of this repository.
-/

namespace Ubitrack

/-- 2-vectors, indexed as in `Math::Vector<2, T>`. -/
abbrev Vec2 (K : Type) := Fin 2 → K

/-- 3-vectors, indexed as in `Math::Vector<3, T>`. -/
abbrev Vec3 (K : Type) := Fin 3 → K

/-- 3x3 matrices, `Math::Matrix<3, 3, T>`. -/
abbrev Mat3 (K : Type) := Fin 3 → Fin 3 → K

/-- 4x4 homogeneous matrices, `Math::Matrix<4, 4, T>`. -/
abbrev Mat4 (K : Type) := Fin 4 → Fin 4 → K

/-- Quaternion record (`Math::Quaternion`), stored as x, y, z, w. -/
structure Quat (K : Type) where
  x : K
  y : K
  z : K
  w : K
deriving DecidableEq

/-- Rigid pose (`Math::Pose`): rotation quaternion plus translation. -/
structure Pose (K : Type) where
  q : Quat K
  t : Vec3 K

/-- Pose with attached 6x6 covariance (`Math::ErrorPose`). -/
structure ErrorPose (K : Type) where
  q : Quat K
  t : Vec3 K
  cov : Fin 6 → Fin 6 → K

section Defs

variable {K : Type} [LinearOrderedField K]

/-- Modelled from the spec: `Math::Quaternion`'s default constructor (the
class lives in `utMath`, outside the sources at hand); the spec states the
sentinel pose carries the identity rotation. -/
def defaultQuat : Quat K := ⟨0, 0, 0, 1⟩

/-- Modelled from the spec: `Math::Pose()` default construction, the
identity rotation with zero translation. -/
def pose0 : Pose K := ⟨defaultQuat, fun _ => 0⟩

/-- Modelled from the spec: `Math::ErrorPose()` default construction, the
"empty pose" sentinel returned when gating rejects the input. -/
def emptyErrorPose : ErrorPose K := ⟨defaultQuat, fun _ => 0, fun _ _ => 0⟩

/-- `ublas::prod` on 4x4 matrices. -/
def mat4Mul (A B : Mat4 K) : Mat4 K := fun i j =>
  A i 0 * B 0 j + A i 1 * B 1 j + A i 2 * B 2 j + A i 3 * B 3 j

/-- `ublas::prod` of a 3x3 matrix with a 3-vector. -/
def mat3MulVec (A : Mat3 K) (v : Vec3 K) : Vec3 K := fun i =>
  A i 0 * v 0 + A i 1 * v 1 + A i 2 * v 2

/-- `ublas::subrange(h, 0, 3, 0, 3)`: the rotation block of a 4x4 matrix. -/
def sub3 (h : Mat4 K) : Mat3 K := fun i j => h i.castSucc j.castSucc

/-- `ublas::subrange(ublas::column(h, 3), 0, 3)`: the translation column. -/
def col3 (h : Mat4 K) : Vec3 K := fun i => h i.castSucc 3

/-- `outer_prod` of two 3-vectors. -/
def outerProd (u v : Vec3 K) : Mat3 K := fun i j => u i * v j

/-- The `skew` helper of `OnlineRotHec.h`: entry-by-entry translation of the
9 assignments building the skew-symmetric matrix of `rotVec`. -/
def skew (rotVec : Vec3 K) : Mat3 K := fun i j =>
  match i, j with
  | 0, 0 => 0
  | 0, 1 => -rotVec 2
  | 0, 2 => rotVec 1
  | 1, 0 => rotVec 2
  | 1, 1 => 0
  | 1, 2 => -rotVec 0
  | 2, 0 => -rotVec 1
  | 2, 1 => rotVec 0
  | 2, 2 => 0

/-- Mathematical cross product, used to characterise `skew` as the
cross-product operator (spec 4.2 step 2). -/
def cross (u w : Vec3 K) : Vec3 K := fun i =>
  match i with
  | 0 => u 1 * w 2 - u 2 * w 1
  | 1 => u 2 * w 0 - u 0 * w 2
  | 2 => u 0 * w 1 - u 1 * w 0

/-- The `getMatrix` helper: reconstructs a rotation matrix from a quaternion
vector part, using the externally supplied square root. -/
def getMatrix (sqrt : K → K) (source : Vec3 K) : Mat3 K :=
  let length := source 0 * source 0 + source 1 * source 1 + source 2 * source 2
  let a := 1 - length / 2
  let alpha := sqrt (4 - length)
  fun i j =>
    (if i = j then a else 0) + (outerProd source source i j + skew source i j * alpha) * (1 / 2)

/-- The `getRcg` helper: rescales the least-squares solution by
`2 / sqrt(1 + |v|^2)` and rebuilds the rotation matrix. -/
def getRcg (sqrt : K → K) (pcg' : Vec3 K) : Mat3 K :=
  let divisor := sqrt (1 + (pcg' 0 * pcg' 0 + pcg' 1 * pcg' 1 + pcg' 2 * pcg' 2))
  getMatrix sqrt (fun i => 2 * pcg' i / divisor)

/-- The four trace-based quaternion candidates `q[0..3]` computed at the top
of `getQuaternion`. -/
def qCand (source : Mat3 K) : Fin 4 → K := fun j =>
  match j with
  | 0 => (1 + source 0 0 + source 1 1 + source 2 2) / 4
  | 1 => (1 + source 0 0 - source 1 1 - source 2 2) / 4
  | 2 => (1 - source 0 0 + source 1 1 - source 2 2) / 4
  | 3 => (1 - source 0 0 - source 1 1 + source 2 2) / 4

/-- The branch-selection chain of `getQuaternion`: `c = 0`, then three
comparisons `if (q[c] < q[k]) c = k`. -/
def selectC (q : Fin 4 → K) : Fin 4 :=
  let c0 : Fin 4 := 0
  let c1 : Fin 4 := if q c0 < q 1 then 1 else c0
  let c2 : Fin 4 := if q c1 < q 2 then 2 else c1
  if q c2 < q 3 then 3 else c2

/-- The six off-diagonal combinations `qoff[0..5]` of `getQuaternion`. -/
def qOffs (source : Mat3 K) : Fin 6 → K := fun j =>
  match j with
  | 0 => (source 2 1 - source 1 2) / 4
  | 1 => (source 0 2 - source 2 0) / 4
  | 2 => (source 1 0 - source 0 1) / 4
  | 3 => (source 1 0 + source 0 1) / 4
  | 4 => (source 0 2 + source 2 0) / 4
  | 5 => (source 2 1 + source 1 2) / 4

/-- `getQuaternion`: extracts the quaternion vector part of a rotation
matrix, dividing by the square root of the selected maximal candidate, and
flipping sign so that `w` is non-negative.  Only the three vector components
are returned (`destination(3)` is dropped in the source). -/
def getQuaternion (sqrt : K → K) (source : Mat3 K) : Vec3 K :=
  let q := qCand source
  let c := selectC q
  let qoff := qOffs source
  let quat : Fin 4 → K :=
    if c = 0 then
      let w := sqrt (q 0)
      fun j => match j with
        | 0 => qoff 0 / w | 1 => qoff 1 / w | 2 => qoff 2 / w | 3 => w
    else if c = 1 then
      let s := sqrt (q 1)
      fun j => match j with
        | 0 => s | 1 => qoff 3 / s | 2 => qoff 4 / s | 3 => qoff 0 / s
    else if c = 2 then
      let s := sqrt (q 2)
      fun j => match j with
        | 0 => qoff 3 / s | 1 => s | 2 => qoff 5 / s | 3 => qoff 1 / s
    else
      let s := sqrt (q 3)
      fun j => match j with
        | 0 => qoff 4 / s | 1 => qoff 5 / s | 2 => s | 3 => qoff 2 / s
  let quat := if quat 3 < 0 then fun j => -(quat j) else quat
  fun i : Fin 3 => quat i.castSucc

/-- `computeSidesRot`: per motion pair, the quaternion vector parts of the
two rotation blocks; returns the skew matrix of their sum (the out-parameter
`skewP`) together with their difference. -/
def computeSidesRot (sqrt : K → K) (hgij hcij : Mat4 K) : Mat3 K × Vec3 K :=
  let pgij := getQuaternion sqrt (sub3 hgij)
  let pcij := getQuaternion sqrt (sub3 hcij)
  (skew (fun i => pgij i + pcij i), fun i => pcij i - pgij i)

/-- `computeSidesTrans`: per motion pair, the left block `rgij - I` (the
out-parameter `leftT`) and the right side `rcg * tcij - tgij`. -/
def computeSidesTrans (hgij hcij : Mat4 K) (rcg : Mat3 K) : Mat3 K × Vec3 K :=
  let rgij := sub3 hgij
  let tgij := col3 hgij
  let tcij := col3 hcij
  (fun i j => rgij i j - (if i = j then 1 else 0),
   fun i => mat3MulVec rcg tcij i - tgij i)

/-- Writing the three rows `3*i, 3*i+1, 3*i+2` of a stacked array, as the
nine per-entry assignments `tA(3*i+r, c) = block(r, c)` do. -/
def writeRows {α : Type} (f : Nat → α) (i : Nat) (g : Fin 3 → α) : Nat → α :=
  fun r => if r = 3 * i then g 0 else if r = 3 * i + 1 then g 1
           else if r = 3 * i + 2 then g 2 else f r

/-- The filling loop `for i in 0..P-1` of `computePcg` / `computeTcg`,
writing block `i` into rows `3*i .. 3*i+2`. -/
def fillBlocks {α : Type} (blocks : Nat → Fin 3 → α) (P : Nat) (init : Nat → α) : Nat → α :=
  (List.range P).foldl (fun f i => writeRows f i (blocks i)) init

/-- Default 4x4 matrix used for (never-taken) out-of-range accesses. -/
def m4zero : Mat4 K := fun _ _ => 0

/-- The pair of uninitialised stacked arrays `(tA, tB)` of `computePcg`
after the filling loop: rows `3*i..3*i+2` carry `computeSidesRot` of the
`i`-th motion pair. -/
def fillRotSystem (sqrt : K → K) (tc : List (Mat4 K × Mat4 K)) :
    (Nat → Fin 3 → K) × (Nat → K) :=
  (fillBlocks (fun i r c =>
      (computeSidesRot sqrt (tc.getD i (m4zero, m4zero)).1 (tc.getD i (m4zero, m4zero)).2).1 r c)
    tc.length (fun _ _ => 0),
   fillBlocks (fun i r =>
      (computeSidesRot sqrt (tc.getD i (m4zero, m4zero)).1 (tc.getD i (m4zero, m4zero)).2).2 r)
    tc.length (fun _ => 0))

/-- The stacked arrays `(tA, tB)` of `computeTcg` after the filling loop. -/
def fillTransSystem (tc : List (Mat4 K × Mat4 K)) (rcg : Mat3 K) :
    (Nat → Fin 3 → K) × (Nat → K) :=
  (fillBlocks (fun i r c =>
      (computeSidesTrans (tc.getD i (m4zero, m4zero)).1 (tc.getD i (m4zero, m4zero)).2 rcg).1 r c)
    tc.length (fun _ _ => 0),
   fillBlocks (fun i r =>
      (computeSidesTrans (tc.getD i (m4zero, m4zero)).1 (tc.getD i (m4zero, m4zero)).2 rcg).2 r)
    tc.length (fun _ => 0))

/-- `computePcg`: build the stacked rotation system, hand it to the external
dense least-squares routine (`lapack::gels`, a consumed interface modelled
as the parameter `gels` taking the stacked matrix, right-hand side and row
count), and rebuild the rotation via `getRcg`. -/
def computePcg (sqrt : K → K) (gels : (Nat → Fin 3 → K) → (Nat → K) → Nat → Vec3 K)
    (tc : List (Mat4 K × Mat4 K)) : Mat3 K :=
  getRcg sqrt (gels (fillRotSystem sqrt tc).1 (fillRotSystem sqrt tc).2 (3 * tc.length))

/-- `computeTcg`: build the stacked translation system and return the dense
least-squares solution unchanged. -/
def computeTcg (gels : (Nat → Fin 3 → K) → (Nat → K) → Nat → Vec3 K)
    (tc : List (Mat4 K × Mat4 K)) (rcg : Mat3 K) : Vec3 K :=
  gels (fillTransSystem tc rcg).1 (fillTransSystem tc rcg).2 (3 * tc.length)

/-- `computeTransformation`: mode 0 builds `Hgij = inverse(hj) * hi`, mode 1
builds `Hcij = hj * inverse(hi)`; `Math::invert_matrix` is a consumed
interface, modelled as the parameter `inv4`. -/
def computeTransformation (inv4 : Mat4 K → Mat4 K) (hi hj : Mat4 K) (mode : Nat) : Mat4 K :=
  if mode = 0 then mat4Mul (inv4 hj) hi else mat4Mul hj (inv4 hi)

/-- `fillTransformationVectors`: the double loop over `i < N-1` and
`k = i+1 .. (bUseAllPairs ? N-1 : i+1)`, pushing the hand pair (mode 0) and
the eye pair (mode 1) for each selected index pair. -/
def fillTransformationVectors (inv4 : Mat4 K → Mat4 K) (hand eye : List (Mat4 K))
    (bUseAllPairs : Bool) : List (Mat4 K × Mat4 K) :=
  (List.range (hand.length - 1)).flatMap (fun i =>
    (List.range ((if bUseAllPairs then hand.length else i + 2) - (i + 1))).map (fun d =>
      (computeTransformation inv4 (hand.getD i m4zero) (hand.getD (i + 1 + d) m4zero) 0,
       computeTransformation inv4 (eye.getD i m4zero) (eye.getD (i + 1 + d) m4zero) 1)))

/-- `performHandEyeCalibrationImp`: size-mismatch check (`UBITRACK_THROW`,
modelled as `Except.error`), the `N <= 2` sentinel short-circuit, then the
two-stage least-squares estimate; `Math::Quaternion(rcg)` (matrix to
quaternion) is a consumed interface, modelled as `quatFromMat`. -/
def performHandEyeCalibrationImp (sqrt : K → K)
    (gels : (Nat → Fin 3 → K) → (Nat → K) → Nat → Vec3 K)
    (inv4 : Mat4 K → Mat4 K) (quatFromMat : Mat3 K → Quat K)
    (hand eye : List (Mat4 K)) (bUseAllPairs : Bool) : Except String (Pose K) :=
  if eye.length ≠ hand.length then .error "Input sizes do not match"
  else if eye.length ≤ 2 then .ok ⟨defaultQuat, fun _ => 0⟩
  else
    let tc := fillTransformationVectors inv4 hand eye bUseAllPairs
    let rcg := computePcg sqrt gels tc
    let tcg := computeTcg gels tc rcg
    .ok ⟨quatFromMat rcg, tcg⟩

/-- `performHandEyeCalibration` (matrix overloads): direct forward to the
implementation. -/
def performHandEyeCalibration (sqrt : K → K)
    (gels : (Nat → Fin 3 → K) → (Nat → K) → Nat → Vec3 K)
    (inv4 : Mat4 K → Mat4 K) (quatFromMat : Mat3 K → Quat K)
    (hand eye : List (Mat4 K)) (bUseAllPairs : Bool) : Except String (Pose K) :=
  performHandEyeCalibrationImp sqrt gels inv4 quatFromMat hand eye bUseAllPairs

/-- Specification-side enumeration of the selected index pairs `(i, k)`,
in the order the double loop of `fillTransformationVectors` visits them. -/
def selectedPairs (N : Nat) (allPairs : Bool) : List (Nat × Nat) :=
  (List.range (N - 1)).flatMap (fun i =>
    (List.range ((if allPairs then N else i + 2) - (i + 1))).map (fun d => (i, i + 1 + d)))

/-- The external interfaces consumed by the multi-camera pose estimator
(spec section 6): closed-form PnP (`Calibration::computePose` with
`PLANAR_HOMOGRAPHY`), pose composition, quaternion/matrix and
quaternion/logarithm conversions, and the Levenberg-Marquardt engine.  The
engine receives the data that builds the objective function (local 3D
points, camera rotations, translations, intrinsic matrices, observation
index pairs), the starting 6-parameter vector and the measurement vector,
and yields the optimised parameters with the final residual. -/
structure RigOps (K : Type) where
  computePnP : List (Vec2 K) → List (Vec3 K) → Mat3 K → Pose K
  poseMul : Pose K → Pose K → Pose K
  quatToMat : Quat K → Mat3 K
  toLogarithm : Quat K → Vec3 K
  fromLogarithm : Vec3 K → Quat K
  lm : List (Vec3 K) → List (Mat3 K) → List (Vec3 K) → List (Mat3 K) →
       List (Nat × Nat) → (Fin 6 → K) → List K → (Fin 6 → K) × K

/-- Indexing a weight row at a C++ `int` point index. -/
def wAt (ws : List K) (p : Int) : K :=
  if p < 0 then 0 else ws.getD p.toNat 0

/-- Indexing a 2D observation row at a C++ `int` point index. -/
def v2At (vs : List (Vec2 K)) (p : Int) : Vec2 K :=
  if p < 0 then fun _ => 0 else vs.getD p.toNat (fun _ => 0)

/-- Indexing the 3D point list at a C++ `int` point index. -/
def v3At (vs : List (Vec3 K)) (p : Int) : Vec3 K :=
  if p < 0 then fun _ => 0 else vs.getD p.toNat (fun _ => 0)

/-- The point indices visited by `for (pointIndex = startIndex;
pointIndex <= endIndex; pointIndex++)`. -/
def rangeInts (s e : Int) : List Int :=
  (List.range (e + 1 - s).toNat).map (fun d => s + (d : Int))

/-- The indices of the selected range kept for camera `c`: those whose
weight is non-zero. -/
def keptIdxs (weights : List (List K)) (s e : Int) (c : Nat) : List Int :=
  (rangeInts s e).filter (fun p => decide (wAt (weights.getD c []) p ≠ 0))

/-- Per-camera observation counts (`observationCount`), one entry per
weight row. -/
def obsCountsOf (weights : List (List K)) (s e : Int) : List Nat :=
  (List.range weights.length).map (fun c => (keptIdxs weights s e c).length)

/-- `*std::min_element` on a non-empty vector, modelled as a fold. -/
def minObsOf (l : List Nat) : Nat := l.foldl min (l.headD 0)

/-- The index returned by `std::max_element`: the first index attaining the
maximum (the running best is replaced only on strict increase). -/
def argmaxIdx (l : List Nat) : Nat :=
  (List.range l.length).foldl (fun best i => if l.getD best 0 < l.getD i 0 then i else best) 0

/-- The value at the `std::max_element` position (`maxObs`). -/
def maxObsOf (l : List Nat) : Nat := l.getD (argmaxIdx l) 0

/-- The branch of `multipleCameraEstimatePose` taken when gating passes:
optional PnP bootstrap seeded from the most-observed camera, measurement
vector assembly (camera-major, two scalars per observation), parameter
encoding (translation then rotation logarithm), the Levenberg-Marquardt
call, and the final `ErrorPose` whose covariance is the residual times the
identity.  `eEnd` is the already-resolved end index. -/
def optimizeBranch (ops : RigOps K) (points3d : List (Vec3 K))
    (points2d : List (List (Vec2 K))) (weights : List (List K))
    (camPoses : List (Pose K)) (camMatrices : List (Mat3 K))
    (hasInit : Bool) (initPose : Pose K) (startIndex eEnd : Int) :
    ErrorPose K × K :=
  let numberCameras := weights.length
  let p2dLocal := fun (c : Nat) =>
    (keptIdxs weights startIndex eEnd c).map (fun p => v2At (points2d.getD c []) p)
  let p3dLocalFiltered := fun (c : Nat) =>
    (keptIdxs weights startIndex eEnd c).map (fun p => v3At points3d p)
  let p3dLocal := (rangeInts startIndex eEnd).map (fun p => v3At points3d p)
  let observations := (List.range numberCameras).flatMap (fun c =>
    (keptIdxs weights startIndex eEnd c).map (fun p => ((p - startIndex).toNat, c)))
  let maxObsIndex := argmaxIdx (obsCountsOf weights startIndex eEnd)
  let ip := if hasInit then initPose
    else ops.poseMul (camPoses.getD maxObsIndex pose0)
      (ops.computePnP (p2dLocal maxObsIndex) (p3dLocalFiltered maxObsIndex)
        (camMatrices.getD maxObsIndex (fun _ _ => 0)))
  let measurements := (List.range numberCameras).flatMap (fun c =>
    (p2dLocal c).flatMap (fun v => [v 0, v 1]))
  let camRotations := camPoses.map (fun p => ops.quatToMat p.q)
  let camTranslations := camPoses.map (fun p => p.t)
  let param0 : Fin 6 → K := fun i =>
    if h : i.val < 3 then ip.t ⟨i.val, h⟩
    else (ops.toLogarithm ip.q) ⟨i.val - 3, by have := i.isLt; omega⟩
  let pr := ops.lm p3dLocal camRotations camTranslations camMatrices observations
    param0 measurements
  (⟨ops.fromLogarithm (fun i => pr.1 ⟨i.val + 3, by have := i.isLt; omega⟩),
    fun i => pr.1 ⟨i.val, by have := i.isLt; omega⟩,
    fun i j => if i = j then pr.2 else 0⟩,
   pr.2)

/-- Resolution of the `-1` end-index sentinel:
`if (endIndex == -1) endIndex = points3d.size() - 1`. -/
def resolveEnd (points3d : List (Vec3 K)) (endIndex : Int) : Int :=
  if endIndex = -1 then (points3d.length : Int) - 1 else endIndex

/-- `multipleCameraEstimatePose`: resolve the `-1` end-index sentinel,
count the per-camera non-zero-weight observations over the selected range,
gate on `minObs >= minCorrespondences && (hasInitialPoseProvided ||
maxObs >= 4)`, and either run the optimisation branch or return the empty
pose with weight `-1`. -/
def multipleCameraEstimatePose (ops : RigOps K) (points3d : List (Vec3 K))
    (points2d : List (List (Vec2 K))) (weights : List (List K))
    (camPoses : List (Pose K)) (camMatrices : List (Mat3 K))
    (minCorrespondences : Int) (hasInit : Bool) (initPose : Pose K)
    (startIndex endIndex : Int) : ErrorPose K × K :=
  if minCorrespondences ≤ (minObsOf (obsCountsOf weights startIndex (resolveEnd points3d endIndex)) : Int)
      ∧ (hasInit = true ∨ 4 ≤ maxObsOf (obsCountsOf weights startIndex (resolveEnd points3d endIndex))) then
    optimizeBranch ops points3d points2d weights camPoses camMatrices
      hasInit initPose startIndex (resolveEnd points3d endIndex)
  else
    (emptyErrorPose, -1)

/-- Specification-side gating condition (spec 4.3): some camera sees fewer
than `minCorrespondences` observations in the selected range, or no initial
pose was supplied and every camera sees fewer than 4. -/
def rigGateFails (weights : List (List K)) (minCorrespondences : Int)
    (hasInit : Bool) (s e : Int) : Prop :=
  (∃ x ∈ obsCountsOf weights s e, (x : Int) < minCorrespondences)
  ∨ (hasInit = false ∧ ∀ x ∈ obsCountsOf weights s e, x < 4)

/-- `checkConsistency`: at least 3 points, equal camera counts across the
four per-camera inputs, and per-camera observation and weight rows as long
as the 3D point list. -/
def checkConsistency (points3d : List (Vec3 K)) (points2d : List (List (Vec2 K)))
    (weights : List (List K)) (camPoses : List (Pose K))
    (camMatrices : List (Mat3 K)) : Bool :=
  decide (3 ≤ points3d.length) &&
  decide (points2d.length = weights.length) &&
  decide (points2d.length = camPoses.length) &&
  decide (points2d.length = camMatrices.length) &&
  (List.range weights.length).all (fun c =>
    decide ((weights.getD c []).length = points3d.length) &&
    decide ((points2d.getD c []).length = points3d.length))

/-- The loop body of `multipleCameraPoseEstimationWithLocalBundles`: one
`multipleCameraEstimatePose` call per bundle with no initial pose, the
offset advancing by the bundle size. -/
def bundleLoop (ops : RigOps K) (points3d : List (Vec3 K))
    (points2d : List (List (Vec2 K))) (weights : List (List K))
    (camPoses : List (Pose K)) (camMatrices : List (Mat3 K))
    (minCorrespondences : Int) (offset : Int) :
    List Int → List (ErrorPose K × K)
  | [] => []
  | sz :: rest =>
    multipleCameraEstimatePose ops points3d points2d weights camPoses camMatrices
      minCorrespondences false pose0 offset (offset + sz - 1) ::
    bundleLoop ops points3d points2d weights camPoses camMatrices
      minCorrespondences (offset + sz) rest

/-- `multipleCameraPoseEstimationWithLocalBundles`: consistency check
(`UBITRACK_THROW` modelled as `Except.error`), then one estimate per local
bundle, collecting the `(ErrorPose, weight)` pairs in order. -/
def multipleCameraPoseEstimationWithLocalBundles (ops : RigOps K)
    (points3d : List (Vec3 K)) (points2d : List (List (Vec2 K)))
    (weights : List (List K)) (camPoses : List (Pose K))
    (camMatrices : List (Mat3 K)) (minCorrespondences : Int)
    (localBundleSizes : List Int) : Except String (List (ErrorPose K × K)) :=
  if checkConsistency points3d points2d weights camPoses camMatrices then
    .ok (bundleLoop ops points3d points2d weights camPoses camMatrices
      minCorrespondences 0 localBundleSizes)
  else
    .error "consistency check failed"

/-- Specification-side cumulative bundle offsets: the `j`-th bundle starts
at `start` plus the sum of the sizes before it. -/
def bundleOffsets (start : Int) : List Int → List Int
  | [] => []
  | sz :: rest => start :: bundleOffsets (start + sz) rest

/-- Specification-side description of the batch mode (spec 4.3 batch/local
bundle): one direct `estimateRigPose` call per bundle, with no initial
pose, on the sub-range `[offset, offset + size - 1]`. -/
def specDirectBundleCalls (ops : RigOps K) (points3d : List (Vec3 K))
    (points2d : List (List (Vec2 K))) (weights : List (List K))
    (camPoses : List (Pose K)) (camMatrices : List (Mat3 K))
    (minCorrespondences : Int) (sizes : List Int) : List (ErrorPose K × K) :=
  (sizes.zip (bundleOffsets 0 sizes)).map (fun q =>
    multipleCameraEstimatePose ops points3d points2d weights camPoses camMatrices
      minCorrespondences false pose0 q.2 (q.2 + q.1 - 1))

end Defs

section Concrete

/-- A rational stand-in for the external square root, exact on the inputs
arising from identity rotations (`sqrt 1 = 1`, `sqrt 4 = 2`, `sqrt 0 = 0`). -/
def ratSqrt (x : ℚ) : ℚ :=
  if x = 1 then 1 else if x = 4 then 2 else 0

/-- A concrete dense least-squares stand-in returning the zero vector, the
minimum-norm answer for an all-zero stacked system. -/
def zeroGels : (Nat → Fin 3 → ℚ) → (Nat → ℚ) → Nat → Vec3 ℚ :=
  fun _ _ _ => fun _ => 0

/-- Identity 4x4 matrix. -/
def id4 : Mat4 ℚ := fun i j => if i = j then 1 else 0

/-- A list of three identity poses: a degenerate, rank-deficient input for
the hand-eye solver. -/
def triId : List (Mat4 ℚ) := [id4, id4, id4]

/-- Concrete instantiation of the consumed interfaces of the multi-camera
estimator, used to evaluate the embedding at specific inputs. -/
def qRigOps : RigOps ℚ where
  computePnP := fun _ _ _ => pose0
  poseMul := fun a _ => a
  quatToMat := fun _ => fun _ _ => 0
  toLogarithm := fun _ => fun _ => 0
  fromLogarithm := fun _ => defaultQuat
  lm := fun _ _ _ _ _ p _ => (p, 0)

/-- Zero 2D point. -/
def v2zero : Vec2 ℚ := fun _ => 0

/-- Zero 3D point. -/
def v3zero : Vec3 ℚ := fun _ => 0

/-- Zero 3x3 matrix. -/
def m3zero : Mat3 ℚ := fun _ _ => 0

/-- Identity 3x3 matrix. -/
def id3 : Mat3 ℚ := fun i j => if i = j then 1 else 0

/-- Concrete 3D point list: three zero points. -/
def cPts3 : List (Vec3 ℚ) := [v3zero, v3zero, v3zero]

/-- Concrete 2D observations of one camera. -/
def cPts2 : List (List (Vec2 ℚ)) := [[v2zero, v2zero, v2zero]]

/-- Concrete weights of one camera: nothing visible. -/
def cWts : List (List ℚ) := [[0, 0, 0]]

/-- Concrete camera extrinsics: one identity pose. -/
def cCamPoses : List (Pose ℚ) := [pose0]

/-- Concrete camera intrinsics: one zero matrix. -/
def cCamMats : List (Mat3 ℚ) := [m3zero]

end Concrete

section HelperLemmas

variable {K : Type} [LinearOrderedField K]

/-- `skew v` is the matrix of the cross-product operator `v x -`. -/
lemma skew_mulVec (v w : Vec3 K) : mat3MulVec (skew v) w = cross v w := by
  funext r
  fin_cases r <;> simp [mat3MulVec, skew, cross] <;> ring

/-- `skew v` is skew-symmetric. -/
lemma skew_antisym (v : Vec3 K) (r c : Fin 3) : skew v r c = -(skew v c r) := by
  fin_cases r <;> fin_cases c <;> simp [skew]

/-- The four trace-based candidates always sum to one. -/
lemma qCand_sum (source : Mat3 K) :
    qCand source 0 + qCand source 1 + qCand source 2 + qCand source 3 = 1 := by
  show (1 + source 0 0 + source 1 1 + source 2 2) / 4
    + (1 + source 0 0 - source 1 1 - source 2 2) / 4
    + (1 - source 0 0 + source 1 1 - source 2 2) / 4
    + (1 - source 0 0 - source 1 1 + source 2 2) / 4 = 1
  ring

/-- Reading back row `3*i + r` of the filled stacked array returns row `r`
of block `i`: later loop iterations only touch later rows. -/
lemma fillBlocks_read {α : Type} (blocks : Nat → Fin 3 → α) (init : Nat → α) :
    ∀ (P i : Nat), i < P → ∀ r : Fin 3,
      fillBlocks blocks P init (3 * i + r.val) = blocks i r := by
  intro P
  induction P with
  | zero => intro i h r; exact absurd h (Nat.not_lt_zero i)
  | succ P ih =>
    intro i h r
    unfold fillBlocks
    rw [List.range_succ, List.foldl_append, List.foldl_cons, List.foldl_nil]
    rcases Nat.lt_or_ge i P with hl | hg
    · have h0 : ¬ (3 * i + r.val = 3 * P) := by have := r.isLt; omega
      have h1 : ¬ (3 * i + r.val = 3 * P + 1) := by have := r.isLt; omega
      have h2 : ¬ (3 * i + r.val = 3 * P + 2) := by have := r.isLt; omega
      simp only [writeRows, h0, h1, h2, if_false]
      exact ih i hl r
    · have hip : i = P := by omega
      subst hip
      simp only [writeRows]
      split_ifs with e0 e1 e2
      · have hr : r = (0 : Fin 3) := Fin.ext (by omega)
        rw [hr]
      · have hr : r = (1 : Fin 3) := Fin.ext (by omega)
        rw [hr]
      · have hr : r = (2 : Fin 3) := Fin.ext (by omega)
        rw [hr]
      · exfalso; have := r.isLt; omega

/-- `foldl min` never exceeds its seed nor any list element. -/
lemma foldl_min_le (l : List Nat) : ∀ a : Nat,
    l.foldl min a ≤ a ∧ ∀ x ∈ l, l.foldl min a ≤ x := by
  induction l with
  | nil => intro a; exact ⟨le_refl _, by simp⟩
  | cons y t ih =>
    intro a
    simp only [List.foldl_cons]
    refine ⟨le_trans (ih (min a y)).1 (min_le_left _ _), ?_⟩
    intro x hx
    rcases List.mem_cons.mp hx with rfl | hx'
    · exact le_trans (ih (min a x)).1 (min_le_right _ _)
    · exact (ih (min a y)).2 x hx'

/-- `foldl min` returns its seed or some list element. -/
lemma foldl_min_mem (l : List Nat) : ∀ a : Nat,
    l.foldl min a = a ∨ l.foldl min a ∈ l := by
  induction l with
  | nil => intro a; left; rfl
  | cons y t ih =>
    intro a
    simp only [List.foldl_cons]
    rcases ih (min a y) with h | h
    · rw [h]
      rcases Nat.le_total a y with hay | hya
      · left; exact min_eq_left hay
      · right; rw [min_eq_right hya]; exact List.mem_cons_self _ _
    · right; exact List.mem_cons_of_mem _ h

/-- `minObsOf` bounds every element of the list from below. -/
lemma minObsOf_le (l : List Nat) (x : Nat) (hx : x ∈ l) : minObsOf l ≤ x :=
  (foldl_min_le l (l.headD 0)).2 x hx

/-- On a non-empty list, `minObsOf` is attained by some element. -/
lemma minObsOf_mem (l : List Nat) (hl : l ≠ []) : minObsOf l ∈ l := by
  rcases foldl_min_mem l (l.headD 0) with h | h
  · rw [minObsOf, h]
    cases l with
    | nil => exact absurd rfl hl
    | cons y t => simp
  · exact h

/-- Invariant of the `std::max_element` fold over index prefix `n`: the
running best index stays at its seed or below `n`, and its value dominates
the seed's value and every scanned value. -/
lemma argmax_fold_spec (l : List Nat) : ∀ (n b : Nat),
    let res := (List.range n).foldl
      (fun best i => if l.getD best 0 < l.getD i 0 then i else best) b
    (res = b ∨ res < n) ∧ l.getD b 0 ≤ l.getD res 0
      ∧ ∀ i, i < n → l.getD i 0 ≤ l.getD res 0 := by
  intro n
  induction n with
  | zero =>
    intro b
    exact ⟨Or.inl rfl, le_refl _, fun i hi => absurd hi (Nat.not_lt_zero i)⟩
  | succ n ih =>
    intro b
    rw [List.range_succ, List.foldl_append, List.foldl_cons, List.foldl_nil]
    rcases ih b with ⟨hb, hdom, hall⟩
    set resn := (List.range n).foldl
      (fun best i => if l.getD best 0 < l.getD i 0 then i else best) b with hres
    by_cases hlt : l.getD resn 0 < l.getD n 0
    · rw [if_pos hlt]
      refine ⟨Or.inr (Nat.lt_succ_self n), le_trans hdom (le_of_lt hlt), ?_⟩
      intro i hi
      rcases Nat.lt_or_ge i n with hin | hin
      · exact le_trans (hall i hin) (le_of_lt hlt)
      · have : i = n := by omega
        rw [this]
    · rw [if_neg hlt]
      refine ⟨?_, hdom, ?_⟩
      · rcases hb with h | h
        · exact Or.inl h
        · exact Or.inr (Nat.lt_succ_of_lt h)
      · intro i hi
        rcases Nat.lt_or_ge i n with hin | hin
        · exact hall i hin
        · have : i = n := by omega
          rw [this]; exact le_of_not_lt hlt

/-- `maxObsOf` dominates every element of the list. -/
lemma maxObsOf_ge (l : List Nat) (x : Nat) (hx : x ∈ l) : x ≤ maxObsOf l := by
  rcases List.getElem_of_mem hx with ⟨i, hi, hget⟩
  have h := (argmax_fold_spec l l.length 0).2.2 i hi
  rw [List.getD_eq_getElem l 0 hi, hget] at h
  exact h

/-- On a non-empty list, `maxObsOf` is attained by some element. -/
lemma maxObsOf_mem (l : List Nat) (hl : l ≠ []) : maxObsOf l ∈ l := by
  have hlen : 0 < l.length := List.length_pos.mpr hl
  have h := (argmax_fold_spec l l.length 0).1
  have harg : argmaxIdx l < l.length := by
    rcases h with h | h
    · rw [argmaxIdx, h]; exact hlen
    · rw [argmaxIdx]; exact h
  rw [maxObsOf, List.getD_eq_getElem l 0 harg]
  exact List.getElem_mem harg

/-- Length of a `flatMap` as the sum of the inner lengths. -/
lemma length_flatMap' {α β : Type} (l : List α) (f : α → List β) :
    (l.flatMap f).length = (l.map (fun a => (f a).length)).sum := by
  induction l with
  | nil => rfl
  | cons a t ih => simp [ih]

/-- Gauss sum for the all-pairs count: summing `m - i` over `i < m`. -/
lemma sum_range_sub_mul_two (m : Nat) :
    (((List.range m).map (fun i => m - i)).sum) * 2 = m * (m + 1) := by
  induction m with
  | zero => rfl
  | succ m ih =>
    rw [List.range_succ_eq_map]
    simp only [List.map_cons, List.sum_cons, List.map_map]
    have hcomp : ((fun i => m + 1 - i) ∘ Nat.succ) = fun i : Nat => m - i := by
      funext i
      simp [Nat.succ_sub_succ]
    rw [hcomp]
    have h0 : m + 1 - 0 = m + 1 := rfl
    rw [h0]
    calc (m + 1 + ((List.range m).map (fun i => m - i)).sum) * 2
        = (m + 1) * 2 + (((List.range m).map (fun i => m - i)).sum) * 2 := by ring
      _ = (m + 1) * 2 + m * (m + 1) := by rw [ih]
      _ = (m + 1) * (m + 1 + 1) := by ring

/-- Reduction of the mode test in all-pairs mode. -/
lemma ifTrueMode (N y : Nat) : (if (true : Bool) = true then N else y) = N := rfl

/-- Reduction of the mode test in consecutive mode. -/
lemma ifFalseMode (N y : Nat) : (if (false : Bool) = true then N else y) = y := rfl

/-- In consecutive mode the selected pairs are exactly `(i, i+1)`. -/
lemma selectedPairs_false (N : Nat) :
    selectedPairs N false = (List.range (N - 1)).map (fun i => (i, i + 1)) := by
  unfold selectedPairs
  simp only [Bool.false_eq_true, if_false]
  have h1 : ∀ i : Nat, i + 2 - (i + 1) = 1 := fun i => by omega
  simp only [h1]
  have h2 : List.range 1 = [0] := rfl
  simp only [h2, List.map_cons, List.map_nil, Nat.add_zero]
  induction N - 1 with
  | zero => rfl
  | succ n ih => rw [List.range_succ, List.flatMap_append, List.map_append, ih]; rfl

/-- Number of selected pairs in consecutive mode. -/
lemma selectedPairs_false_length (N : Nat) : (selectedPairs N false).length = N - 1 := by
  rw [selectedPairs_false, List.length_map, List.length_range]

/-- Number of selected pairs in all-pairs mode. -/
lemma selectedPairs_true_length (N : Nat) :
    (selectedPairs N true).length = N * (N - 1) / 2 := by
  cases N with
  | zero => rfl
  | succ n =>
    unfold selectedPairs
    rw [length_flatMap']
    simp only [List.length_map, List.length_range, Nat.succ_sub_one, if_true]
    have h1 : ∀ i : Nat, n + 1 - (i + 1) = n - i := fun i => by omega
    simp only [h1]
    have h := sum_range_sub_mul_two n
    have h2 : (n + 1) * n = ((List.range n).map (fun i => n - i)).sum * 2 := by
      rw [h]; ring
    rw [h2, Nat.mul_div_cancel _ (by norm_num)]

/-- Every selected pair is strictly increasing and below `N`. -/
lemma selectedPairs_lt (N : Nat) (b : Bool) :
    ∀ ik ∈ selectedPairs N b, ik.1 < ik.2 ∧ ik.2 < N := by
  intro ik hik
  unfold selectedPairs at hik
  rcases List.mem_flatMap.mp hik with ⟨i, hi, hmem⟩
  rcases List.mem_map.mp hmem with ⟨d, hd, rfl⟩
  rw [List.mem_range] at hi hd
  cases b with
  | false => simp only [Bool.false_eq_true, if_false] at hd; constructor <;> omega
  | true => simp only [if_true] at hd; constructor <;> omega

/-- The bundle loop is the list of direct estimate calls at the cumulative
offsets. -/
lemma bundleLoop_eq {K : Type} [LinearOrderedField K] (ops : RigOps K)
    (points3d : List (Vec3 K)) (points2d : List (List (Vec2 K)))
    (weights : List (List K)) (camPoses : List (Pose K))
    (camMatrices : List (Mat3 K)) (minCorrespondences : Int)
    (sizes : List Int) : ∀ offset : Int,
    bundleLoop ops points3d points2d weights camPoses camMatrices
        minCorrespondences offset sizes
      = (sizes.zip (bundleOffsets offset sizes)).map (fun q =>
          multipleCameraEstimatePose ops points3d points2d weights camPoses
            camMatrices minCorrespondences false pose0 q.2 (q.2 + q.1 - 1)) := by
  induction sizes with
  | nil => intro offset; rfl
  | cons sz rest ih =>
    intro offset
    simp only [bundleLoop, bundleOffsets, List.zip_cons_cons, List.map_cons, ih (offset + sz)]

/-- The cumulative offsets are the partial sums of the bundle sizes. -/
lemma bundleOffsets_getD (sizes : List Int) : ∀ (start : Int) (j : Nat), j < sizes.length →
    (bundleOffsets start sizes).getD j 0 = start + (sizes.take j).sum := by
  induction sizes with
  | nil => intro start j hj; exact absurd hj (Nat.not_lt_zero j)
  | cons sz rest ih =>
    intro start j hj
    cases j with
    | zero => simp [bundleOffsets]
    | succ j =>
      simp only [bundleOffsets, List.getD_cons_succ, List.take_succ_cons, List.sum_cons]
      rw [ih (start + sz) j (by simpa using hj)]
      ring

end HelperLemmas

section Claims

/-- C2: for every pair of input sequences `handPoses` and `eyePoses` with
differing lengths, `performHandEyeCalibration` raises the size-mismatch
error and returns no pose. -/
theorem performHandEyeCalibration_size_mismatch {K : Type} [LinearOrderedField K]
    (sqrt : K → K) (gels : (Nat → Fin 3 → K) → (Nat → K) → Nat → Vec3 K)
    (inv4 : Mat4 K → Mat4 K) (quatFromMat : Mat3 K → Quat K)
    (hand eye : List (Mat4 K)) (bUseAllPairs : Bool)
    (h : hand.length ≠ eye.length) :
    performHandEyeCalibration sqrt gels inv4 quatFromMat hand eye bUseAllPairs
      = .error "Input sizes do not match" := by
  unfold performHandEyeCalibration performHandEyeCalibrationImp
  rw [if_pos (Ne.symm h)]

/-- Witness for C2 at a concrete mismatched input. -/
theorem performHandEyeCalibration_size_mismatch_witness :
    ([id4].length ≠ ([] : List (Mat4 ℚ)).length)
    ∧ performHandEyeCalibration ratSqrt zeroGels (fun m => m) (fun _ => defaultQuat)
        [id4] [] true = .error "Input sizes do not match" :=
  ⟨by decide,
   performHandEyeCalibration_size_mismatch ratSqrt zeroGels (fun m => m)
     (fun _ => defaultQuat) [id4] [] true (by decide)⟩

/-- C3: for every pair of equal-length input sequences of length at most 2,
`performHandEyeCalibration` returns the sentinel pose with identity
rotation and zero translation, and never raises an error. -/
theorem performHandEyeCalibration_insufficient_data {K : Type} [LinearOrderedField K]
    (sqrt : K → K) (gels : (Nat → Fin 3 → K) → (Nat → K) → Nat → Vec3 K)
    (inv4 : Mat4 K → Mat4 K) (quatFromMat : Mat3 K → Quat K)
    (hand eye : List (Mat4 K)) (bUseAllPairs : Bool)
    (hlen : hand.length = eye.length) (hle : eye.length ≤ 2) :
    performHandEyeCalibration sqrt gels inv4 quatFromMat hand eye bUseAllPairs
      = .ok ⟨⟨0, 0, 0, 1⟩, fun _ => 0⟩ := by
  unfold performHandEyeCalibration performHandEyeCalibrationImp
  rw [if_neg (not_ne_iff.mpr hlen.symm), if_pos hle]
  rfl

/-- Witness for C3 at a concrete two-element input. -/
theorem performHandEyeCalibration_insufficient_data_witness :
    ([id4, id4].length = [id4, id4].length) ∧ ([id4, id4].length ≤ 2)
    ∧ performHandEyeCalibration ratSqrt zeroGels (fun m => m) (fun _ => defaultQuat)
        [id4, id4] [id4, id4] false = .ok ⟨⟨0, 0, 0, 1⟩, fun _ => 0⟩ :=
  ⟨rfl, by decide,
   performHandEyeCalibration_insufficient_data ratSqrt zeroGels (fun m => m)
     (fun _ => defaultQuat) [id4, id4] [id4, id4] false rfl (by decide)⟩

/-- C6: for every 3x3 input matrix, the trace-based selection of
`getQuaternion` picks a maximal candidate among the four, and that
candidate is at least 1/4, so the square-root divisor of the selected
branch is bounded away from zero. -/
theorem getQuaternion_branch_selection {K : Type} [LinearOrderedField K]
    (source : Mat3 K) :
    (qCand source 0 ≤ qCand source (selectC (qCand source))
     ∧ qCand source 1 ≤ qCand source (selectC (qCand source))
     ∧ qCand source 2 ≤ qCand source (selectC (qCand source))
     ∧ qCand source 3 ≤ qCand source (selectC (qCand source)))
    ∧ (1 : K) / 4 ≤ qCand source (selectC (qCand source)) := by
  have hsum := qCand_sum source
  by_cases h1 : qCand source 0 < qCand source 1
  · by_cases h2 : qCand source 1 < qCand source 2
    · by_cases h3 : qCand source 2 < qCand source 3
      · have hc : selectC (qCand source) = 3 := by simp [selectC, h1, h2, h3]
        rw [hc]
        exact ⟨⟨by linarith, by linarith, by linarith, le_refl _⟩, by linarith⟩
      · have hc : selectC (qCand source) = 2 := by simp [selectC, h1, h2, h3]
        rw [hc]
        exact ⟨⟨by linarith, by linarith, le_refl _, by linarith⟩, by linarith⟩
    · by_cases h3 : qCand source 1 < qCand source 3
      · have hc : selectC (qCand source) = 3 := by simp [selectC, h1, h2, h3]
        rw [hc]
        exact ⟨⟨by linarith, by linarith, by linarith, le_refl _⟩, by linarith⟩
      · have hc : selectC (qCand source) = 1 := by simp [selectC, h1, h2, h3]
        rw [hc]
        exact ⟨⟨by linarith, le_refl _, by linarith, by linarith⟩, by linarith⟩
  · by_cases h2 : qCand source 0 < qCand source 2
    · by_cases h3 : qCand source 2 < qCand source 3
      · have hc : selectC (qCand source) = 3 := by simp [selectC, h1, h2, h3]
        rw [hc]
        exact ⟨⟨by linarith, by linarith, by linarith, le_refl _⟩, by linarith⟩
      · have hc : selectC (qCand source) = 2 := by simp [selectC, h1, h2, h3]
        rw [hc]
        exact ⟨⟨by linarith, by linarith, le_refl _, by linarith⟩, by linarith⟩
    · by_cases h3 : qCand source 0 < qCand source 3
      · have hc : selectC (qCand source) = 3 := by simp [selectC, h1, h2, h3]
        rw [hc]
        exact ⟨⟨by linarith, by linarith, by linarith, le_refl _⟩, by linarith⟩
      · have hc : selectC (qCand source) = 0 := by simp [selectC, h1, h2, h3]
        rw [hc]
        exact ⟨⟨le_refl _, by linarith, by linarith, by linarith⟩, by linarith⟩

/-- Evaluation fact: the 4x4 identity is idempotent under `mat4Mul`. -/
lemma mat4Mul_id : mat4Mul id4 id4 = id4 := by
  funext i j
  fin_cases i <;> fin_cases j <;> norm_num [mat4Mul, id4, Fin.ext_iff] <;> decide

/-- Evaluation fact: the rotation block of the 4x4 identity is the 3x3
identity. -/
lemma sub3_id4 : sub3 id4 = id3 := by
  funext i j
  fin_cases i <;> fin_cases j <;> rfl

/-- Evaluation fact: first trace-based candidate of the identity matrix. -/
lemma qCand_id3_zero : qCand id3 0 = 1 := by norm_num [qCand, id3]

/-- Evaluation fact: second trace-based candidate of the identity matrix. -/
lemma qCand_id3_one : qCand id3 1 = 0 := by norm_num [qCand, id3]

/-- Evaluation fact: third trace-based candidate of the identity matrix. -/
lemma qCand_id3_two : qCand id3 2 = 0 := by norm_num [qCand, id3]

/-- Evaluation fact: fourth trace-based candidate of the identity matrix. -/
lemma qCand_id3_three : qCand id3 3 = 0 := by norm_num [qCand, id3]

/-- Evaluation fact: the selection chain picks branch 0 on the identity. -/
lemma selectC_id3 : selectC (qCand id3) = 0 := by
  norm_num [selectC, qCand_id3_zero, qCand_id3_one, qCand_id3_two, qCand_id3_three]

/-- Evaluation fact: the quaternion vector part of the identity rotation is
zero. -/
lemma getQuaternion_id3 : getQuaternion ratSqrt id3 = fun _ => 0 := by
  funext i
  norm_num [getQuaternion, selectC_id3, qCand_id3_zero, qOffs, id3, ratSqrt]
  fin_cases i <;> norm_num [Fin.ext_iff]

/-- Evaluation fact: an identity motion pair contributes a zero block and a
zero right-hand side to the rotation system. -/
lemma computeSidesRot_id :
    computeSidesRot ratSqrt id4 id4 = (fun _ _ => (0 : ℚ), fun _ => 0) := by
  unfold computeSidesRot
  rw [sub3_id4, getQuaternion_id3]
  refine Prod.ext ?_ ?_
  · funext r c
    fin_cases r <;> fin_cases c <;> norm_num [skew]
  · funext r
    norm_num

/-- Evaluation fact: the consecutive motion pairs of three identity poses
are two identity pairs. -/
lemma fillTrans_triId :
    fillTransformationVectors (fun m => m) triId triId false = [(id4, id4), (id4, id4)] := by
  have h : fillTransformationVectors (fun m => m) triId triId false
      = [(mat4Mul id4 id4, mat4Mul id4 id4), (mat4Mul id4 id4, mat4Mul id4 id4)] := rfl
  rw [h, mat4Mul_id]

/-- Evaluation fact: the stacked rotation system of two identity pairs is
identically zero on its six rows. -/
lemma rotSystem_id_zero : ∀ i : Nat, i < 2 → ∀ rv c : Fin 3,
    (fillRotSystem ratSqrt [((id4 : Mat4 ℚ), id4), (id4, id4)]).1 (3 * i + rv.val) c = 0 := by
  intro i hi rv c
  have h := congrFun (fillBlocks_read
    (fun i r c => (computeSidesRot ratSqrt
      (([((id4 : Mat4 ℚ), id4), (id4, id4)].getD i (m4zero, m4zero))).1
      (([((id4 : Mat4 ℚ), id4), (id4, id4)].getD i (m4zero, m4zero))).2).1 r c)
    (fun _ _ => 0) 2 i hi rv) c
  refine h.trans ?_
  interval_cases i
  · show (computeSidesRot ratSqrt id4 id4).1 rv c = 0
    rw [computeSidesRot_id]
  · show (computeSidesRot ratSqrt id4 id4).1 rv c = 0
    rw [computeSidesRot_id]

/-- C7, counterexample: on three identity input poses the stacked rotation
system is identically zero (maximally rank-deficient), yet the call
returns an ok pose instead of surfacing any calibration-failure error: the
result status of the least-squares routine is never inspected. -/
theorem calibrationFailed_counterexample :
    (∀ r : Nat, r < 6 → ∀ c : Fin 3,
      (fillRotSystem ratSqrt (fillTransformationVectors (fun m => m) triId triId false)).1 r c = 0)
    ∧ (performHandEyeCalibrationImp ratSqrt zeroGels (fun m => m) (fun _ => defaultQuat)
        triId triId false).isOk = true := by
  constructor
  · intro r hr c
    rw [fillTrans_triId]
    interval_cases r
    · exact rotSystem_id_zero 0 (by norm_num) 0 c
    · exact rotSystem_id_zero 0 (by norm_num) 1 c
    · exact rotSystem_id_zero 0 (by norm_num) 2 c
    · exact rotSystem_id_zero 1 (by norm_num) 0 c
    · exact rotSystem_id_zero 1 (by norm_num) 1 c
    · exact rotSystem_id_zero 1 (by norm_num) 2 c
  · rfl

/-- C7, amended: whenever the two input sequences have equal length -- in
particular when the stacked systems are rank-deficient -- the call returns
an ok pose built from whatever the least-squares routine produced; no
distinct calibration-failure error exists in this code path. -/
theorem performHandEyeCalibration_never_fails {K : Type} [LinearOrderedField K]
    (sqrt : K → K) (gels : (Nat → Fin 3 → K) → (Nat → K) → Nat → Vec3 K)
    (inv4 : Mat4 K → Mat4 K) (quatFromMat : Mat3 K → Quat K)
    (hand eye : List (Mat4 K)) (bUseAllPairs : Bool)
    (hlen : eye.length = hand.length) :
    ∃ p, performHandEyeCalibrationImp sqrt gels inv4 quatFromMat hand eye bUseAllPairs
      = .ok p := by
  unfold performHandEyeCalibrationImp
  rw [if_neg (not_ne_iff.mpr hlen)]
  by_cases h2 : eye.length ≤ 2
  · rw [if_pos h2]; exact ⟨_, rfl⟩
  · rw [if_neg h2]; exact ⟨_, rfl⟩

/-- Witness for the amended C7 at the rank-deficient all-identity input. -/
theorem performHandEyeCalibration_never_fails_witness :
    (triId.length = triId.length)
    ∧ ∃ p, performHandEyeCalibrationImp ratSqrt zeroGels (fun m => m)
        (fun _ => defaultQuat) triId triId false = .ok p :=
  ⟨rfl,
   performHandEyeCalibration_never_fails ratSqrt zeroGels (fun m => m)
     (fun _ => defaultQuat) triId triId false rfl⟩

/-- C10: calling `multipleCameraEstimatePose` with `endIndex = -1` behaves
exactly as calling it with `endIndex = points3d.length - 1`: the sentinel
selects the full range up to the last 3D point. -/
theorem multipleCameraEstimatePose_endIndex_sentinel {K : Type} [LinearOrderedField K]
    (ops : RigOps K) (points3d : List (Vec3 K)) (points2d : List (List (Vec2 K)))
    (weights : List (List K)) (camPoses : List (Pose K)) (camMatrices : List (Mat3 K))
    (minCorrespondences : Int) (hasInit : Bool) (initPose : Pose K) (startIndex : Int) :
    multipleCameraEstimatePose ops points3d points2d weights camPoses camMatrices
        minCorrespondences hasInit initPose startIndex (-1)
      = multipleCameraEstimatePose ops points3d points2d weights camPoses camMatrices
        minCorrespondences hasInit initPose startIndex ((points3d.length : Int) - 1) := by
  have h : resolveEnd points3d (-1) = resolveEnd points3d ((points3d.length : Int) - 1) := by
    unfold resolveEnd
    rw [if_pos rfl, ite_self]
  unfold multipleCameraEstimatePose
  rw [h]

/-- C1: for equal-length inputs with at least 3 poses, the motion-pair
builder emits exactly the selected index pairs in loop order -- `N-1` of
them in consecutive mode, `N(N-1)/2` in all-pairs mode -- and for each
selected pair `i < k < N` the hand side is `inverse(pose_k) * pose_i`
while the eye side is `pose_k * inverse(pose_i)`. -/
theorem fillTransformationVectors_pairs {K : Type} [LinearOrderedField K]
    (inv4 : Mat4 K → Mat4 K) (hand eye : List (Mat4 K)) (bUseAllPairs : Bool)
    (hlen : hand.length = eye.length) (hN : 3 ≤ hand.length) :
    (fillTransformationVectors inv4 hand eye bUseAllPairs
      = (selectedPairs hand.length bUseAllPairs).map (fun ik =>
          (mat4Mul (inv4 (hand.getD ik.2 m4zero)) (hand.getD ik.1 m4zero),
           mat4Mul (eye.getD ik.2 m4zero) (inv4 (eye.getD ik.1 m4zero)))))
    ∧ (fillTransformationVectors inv4 hand eye bUseAllPairs).length
        = (if bUseAllPairs then hand.length * (hand.length - 1) / 2 else hand.length - 1)
    ∧ (∀ ik ∈ selectedPairs hand.length bUseAllPairs, ik.1 < ik.2 ∧ ik.2 < hand.length) := by
  have hmap : fillTransformationVectors inv4 hand eye bUseAllPairs
      = (selectedPairs hand.length bUseAllPairs).map (fun ik =>
          (mat4Mul (inv4 (hand.getD ik.2 m4zero)) (hand.getD ik.1 m4zero),
           mat4Mul (eye.getD ik.2 m4zero) (inv4 (eye.getD ik.1 m4zero)))) := by
    unfold fillTransformationVectors selectedPairs
    rw [List.map_flatMap]
    simp only [List.map_map]
    rfl
  refine ⟨hmap, ?_, selectedPairs_lt _ _⟩
  rw [hmap, List.length_map]
  cases bUseAllPairs with
  | false => rw [selectedPairs_false_length]; rfl
  | true => rw [selectedPairs_true_length]; rfl

/-- Witness for C1 at three identity poses in all-pairs mode. -/
theorem fillTransformationVectors_pairs_witness :
    (triId.length = triId.length) ∧ (3 ≤ triId.length)
    ∧ ((fillTransformationVectors (fun m => m) triId triId true
        = (selectedPairs triId.length true).map (fun ik =>
            (mat4Mul ((fun m : Mat4 ℚ => m) (triId.getD ik.2 m4zero)) (triId.getD ik.1 m4zero),
             mat4Mul (triId.getD ik.2 m4zero) ((fun m : Mat4 ℚ => m) (triId.getD ik.1 m4zero)))))
      ∧ (fillTransformationVectors (fun m => m) triId triId true).length
          = (if true then triId.length * (triId.length - 1) / 2 else triId.length - 1)
      ∧ (∀ ik ∈ selectedPairs triId.length true, ik.1 < ik.2 ∧ ik.2 < triId.length)) :=
  ⟨rfl, by decide,
   fillTransformationVectors_pairs (fun m => m) triId triId true rfl (by decide)⟩

/-- C4: the rotation stage stacks, per motion pair, the skew-symmetric
cross-product matrix of the sum of the two extracted quaternion vector
parts on the left and their difference on the right, and the least-squares
solution `v` is rescaled to `2*v / sqrt(1 + |v|^2)` before the rotation
matrix is rebuilt from it. -/
theorem computePcg_rotation_system {K : Type} [LinearOrderedField K] (sqrt : K → K)
    (gels : (Nat → Fin 3 → K) → (Nat → K) → Nat → Vec3 K)
    (tc : List (Mat4 K × Mat4 K)) :
    (∀ i : Fin tc.length, ∀ r c : Fin 3,
      (fillRotSystem sqrt tc).1 (3 * i.val + r.val) c
        = skew (fun m => getQuaternion sqrt (sub3 (tc.getD i.val (m4zero, m4zero)).1) m
            + getQuaternion sqrt (sub3 (tc.getD i.val (m4zero, m4zero)).2) m) r c
      ∧ (fillRotSystem sqrt tc).2 (3 * i.val + r.val)
        = getQuaternion sqrt (sub3 (tc.getD i.val (m4zero, m4zero)).2) r
          - getQuaternion sqrt (sub3 (tc.getD i.val (m4zero, m4zero)).1) r)
    ∧ (∀ v w : Vec3 K, mat3MulVec (skew v) w = cross v w)
    ∧ (∀ v : Vec3 K, ∀ r c : Fin 3, skew v r c = -(skew v c r))
    ∧ (computePcg sqrt gels tc
        = getMatrix sqrt (fun j =>
            2 * gels (fillRotSystem sqrt tc).1 (fillRotSystem sqrt tc).2 (3 * tc.length) j
              / sqrt (1
                + (gels (fillRotSystem sqrt tc).1 (fillRotSystem sqrt tc).2 (3 * tc.length) 0
                    * gels (fillRotSystem sqrt tc).1 (fillRotSystem sqrt tc).2 (3 * tc.length) 0
                  + gels (fillRotSystem sqrt tc).1 (fillRotSystem sqrt tc).2 (3 * tc.length) 1
                    * gels (fillRotSystem sqrt tc).1 (fillRotSystem sqrt tc).2 (3 * tc.length) 1
                  + gels (fillRotSystem sqrt tc).1 (fillRotSystem sqrt tc).2 (3 * tc.length) 2
                    * gels (fillRotSystem sqrt tc).1 (fillRotSystem sqrt tc).2 (3 * tc.length) 2)))) := by
  refine ⟨?_, skew_mulVec, skew_antisym, rfl⟩
  intro i r c
  exact ⟨congrFun (fillBlocks_read _ _ tc.length i.val i.isLt r) c,
         fillBlocks_read _ _ tc.length i.val i.isLt r⟩

/-- C5: the translation stage stacks, per motion pair, the hand rotation
block minus the identity on the left and `rcg * (eye translation) - (hand
translation)` on the right, and the returned translation is the dense
least-squares solution of that stacked system. -/
theorem computeTcg_translation_system {K : Type} [LinearOrderedField K]
    (gels : (Nat → Fin 3 → K) → (Nat → K) → Nat → Vec3 K)
    (tc : List (Mat4 K × Mat4 K)) (rcg : Mat3 K) :
    (∀ i : Fin tc.length, ∀ r c : Fin 3,
      (fillTransSystem tc rcg).1 (3 * i.val + r.val) c
        = sub3 (tc.getD i.val (m4zero, m4zero)).1 r c - (if r = c then 1 else 0)
      ∧ (fillTransSystem tc rcg).2 (3 * i.val + r.val)
        = mat3MulVec rcg (col3 (tc.getD i.val (m4zero, m4zero)).2) r
          - col3 (tc.getD i.val (m4zero, m4zero)).1 r)
    ∧ computeTcg gels tc rcg
        = gels (fillTransSystem tc rcg).1 (fillTransSystem tc rcg).2 (3 * tc.length) := by
  refine ⟨?_, rfl⟩
  intro i r c
  exact ⟨congrFun (fillBlocks_read _ _ tc.length i.val i.isLt r) c,
         fillBlocks_read _ _ tc.length i.val i.isLt r⟩

/-- C8: for consistent input with at least one camera and an in-bounds
range, the estimator returns the sentinel `(empty pose, weight -1)` exactly
when some camera has fewer than `minCorrespondences` non-zero-weight
observations in the selected range, or no initial pose was supplied and
every camera has fewer than 4; otherwise it runs the optimisation branch
and returns its pose with the non-negative final residual. -/
theorem multipleCameraEstimatePose_gating {K : Type} [LinearOrderedField K]
    (ops : RigOps K) (points3d : List (Vec3 K)) (points2d : List (List (Vec2 K)))
    (weights : List (List K)) (camPoses : List (Pose K)) (camMatrices : List (Mat3 K))
    (minCorrespondences : Int) (hasInit : Bool) (initPose : Pose K)
    (startIndex endIndex : Int)
    (hc : checkConsistency points3d points2d weights camPoses camMatrices = true)
    (hK : 0 < weights.length)
    (hs : 0 ≤ startIndex)
    (he : resolveEnd points3d endIndex < (points3d.length : Int))
    (hlm : ∀ a b c d e f g, 0 ≤ (ops.lm a b c d e f g).2) :
    ((multipleCameraEstimatePose ops points3d points2d weights camPoses camMatrices
        minCorrespondences hasInit initPose startIndex endIndex).2 = -1
      ↔ rigGateFails weights minCorrespondences hasInit startIndex
          (resolveEnd points3d endIndex))
    ∧ (rigGateFails weights minCorrespondences hasInit startIndex
          (resolveEnd points3d endIndex) →
        multipleCameraEstimatePose ops points3d points2d weights camPoses camMatrices
          minCorrespondences hasInit initPose startIndex endIndex
          = (emptyErrorPose, -1))
    ∧ (¬ rigGateFails weights minCorrespondences hasInit startIndex
          (resolveEnd points3d endIndex) →
        multipleCameraEstimatePose ops points3d points2d weights camPoses camMatrices
          minCorrespondences hasInit initPose startIndex endIndex
          = optimizeBranch ops points3d points2d weights camPoses camMatrices
              hasInit initPose startIndex (resolveEnd points3d endIndex)
        ∧ 0 ≤ (multipleCameraEstimatePose ops points3d points2d weights camPoses
              camMatrices minCorrespondences hasInit initPose startIndex endIndex).2) := by
  have hne : obsCountsOf weights startIndex (resolveEnd points3d endIndex) ≠ [] := by
    apply List.ne_nil_of_length_pos
    simpa [obsCountsOf] using hK
  have hmin_iff : ((minObsOf (obsCountsOf weights startIndex (resolveEnd points3d endIndex)) : Int)
        < minCorrespondences)
      ↔ ∃ x ∈ obsCountsOf weights startIndex (resolveEnd points3d endIndex),
          (x : Int) < minCorrespondences := by
    constructor
    · intro h
      exact ⟨_, minObsOf_mem _ hne, h⟩
    · rintro ⟨x, hx, hxlt⟩
      have h1 : minObsOf (obsCountsOf weights startIndex (resolveEnd points3d endIndex)) ≤ x :=
        minObsOf_le _ x hx
      have h2 : ((minObsOf (obsCountsOf weights startIndex (resolveEnd points3d endIndex)) : Int))
          ≤ (x : Int) := by exact_mod_cast h1
      exact lt_of_le_of_lt h2 hxlt
  have hmax_iff : (maxObsOf (obsCountsOf weights startIndex (resolveEnd points3d endIndex)) < 4)
      ↔ ∀ x ∈ obsCountsOf weights startIndex (resolveEnd points3d endIndex), x < 4 := by
    constructor
    · intro h x hx
      exact lt_of_le_of_lt (maxObsOf_ge _ x hx) h
    · intro h
      exact h _ (maxObsOf_mem _ hne)
  have hgate : (minCorrespondences
        ≤ (minObsOf (obsCountsOf weights startIndex (resolveEnd points3d endIndex)) : Int)
      ∧ (hasInit = true
        ∨ 4 ≤ maxObsOf (obsCountsOf weights startIndex (resolveEnd points3d endIndex))))
      ↔ ¬ rigGateFails weights minCorrespondences hasInit startIndex
          (resolveEnd points3d endIndex) := by
    unfold rigGateFails
    rw [not_or]
    constructor
    · rintro ⟨hmin, hinit⟩
      refine ⟨fun hex => absurd (hmin_iff.mpr hex) (not_lt.mpr hmin), ?_⟩
      rintro ⟨hfalse, hall⟩
      rcases hinit with h | h
      · rw [hfalse] at h
        exact Bool.noConfusion h
      · exact absurd (hmax_iff.mpr hall) (not_lt.mpr h)
    · rintro ⟨hne1, hne2⟩
      constructor
      · by_contra hlt
        rw [not_le] at hlt
        exact hne1 (hmin_iff.mp hlt)
      · by_cases hinit : hasInit = true
        · exact Or.inl hinit
        · right
          have hfalse : hasInit = false := by
            cases hasInit
            · rfl
            · exact absurd rfl hinit
          by_contra hmax
          rw [not_le] at hmax
          exact hne2 ⟨hfalse, hmax_iff.mp hmax⟩
  unfold multipleCameraEstimatePose
  split_ifs with hg
  · have hnG := hgate.mp hg
    have h2 : 0 ≤ (optimizeBranch ops points3d points2d weights camPoses camMatrices
        hasInit initPose startIndex (resolveEnd points3d endIndex)).2 :=
      hlm _ _ _ _ _ _ _
    refine ⟨⟨fun hres => absurd hres (by intro h; rw [h] at h2; linarith), fun hG => absurd hG hnG⟩,
      fun hG => absurd hG hnG, fun _ => ⟨rfl, h2⟩⟩
  · have hG : rigGateFails weights minCorrespondences hasInit startIndex
        (resolveEnd points3d endIndex) := by
      by_contra hnG
      exact hg (hgate.mpr hnG)
    exact ⟨⟨fun _ => hG, fun _ => rfl⟩, fun _ => rfl, fun hnG => absurd hG hnG⟩

/-- C9: on consistent input, the local-bundle batch mode returns exactly
the direct estimate of each bundle sub-range with no initial pose, the
offsets advancing cumulatively over the bundle sizes. -/
theorem localBundles_refines_direct {K : Type} [LinearOrderedField K]
    (ops : RigOps K) (points3d : List (Vec3 K)) (points2d : List (List (Vec2 K)))
    (weights : List (List K)) (camPoses : List (Pose K)) (camMatrices : List (Mat3 K))
    (minCorrespondences : Int) (sizes : List Int)
    (hc : checkConsistency points3d points2d weights camPoses camMatrices = true) :
    multipleCameraPoseEstimationWithLocalBundles ops points3d points2d weights
        camPoses camMatrices minCorrespondences sizes
      = .ok (specDirectBundleCalls ops points3d points2d weights camPoses camMatrices
          minCorrespondences sizes)
    ∧ (∀ j, j < sizes.length → (bundleOffsets 0 sizes).getD j 0 = (sizes.take j).sum) := by
  constructor
  · unfold multipleCameraPoseEstimationWithLocalBundles
    rw [if_pos hc, bundleLoop_eq]
    rfl
  · intro j hj
    rw [bundleOffsets_getD sizes 0 j hj]
    omega

/-- Witness for C8 at a one-camera input with no visible observations. -/
theorem multipleCameraEstimatePose_gating_witness :
    (checkConsistency cPts3 cPts2 cWts cCamPoses cCamMats = true)
    ∧ (0 < cWts.length)
    ∧ ((0 : Int) ≤ 0)
    ∧ (resolveEnd cPts3 2 < (cPts3.length : Int))
    ∧ (∀ a b c d e f g, 0 ≤ (qRigOps.lm a b c d e f g).2)
    ∧ ((multipleCameraEstimatePose qRigOps cPts3 cPts2 cWts cCamPoses cCamMats
          1 false pose0 0 2).2 = -1
        ↔ rigGateFails cWts 1 false 0 (resolveEnd cPts3 2)) :=
  ⟨by decide, by decide, by decide, by decide,
   fun a b c d e f g => le_refl 0,
   (multipleCameraEstimatePose_gating qRigOps cPts3 cPts2 cWts cCamPoses cCamMats
      1 false pose0 0 2 (by decide) (by decide) (by decide) (by decide)
      (fun a b c d e f g => le_refl 0)).1⟩

/-- Witness for C9 at a two-bundle partition of three points. -/
theorem localBundles_refines_direct_witness :
    (checkConsistency cPts3 cPts2 cWts cCamPoses cCamMats = true)
    ∧ (multipleCameraPoseEstimationWithLocalBundles qRigOps cPts3 cPts2 cWts
          cCamPoses cCamMats 1 [1, 2]
        = .ok (specDirectBundleCalls qRigOps cPts3 cPts2 cWts cCamPoses cCamMats 1 [1, 2])
      ∧ (∀ j, j < ([1, 2] : List Int).length →
          (bundleOffsets 0 [1, 2]).getD j 0 = (([1, 2] : List Int).take j).sum)) :=
  ⟨by decide,
   localBundles_refines_direct qRigOps cPts3 cPts2 cWts cCamPoses cCamMats 1 [1, 2] (by decide)⟩

end Claims

end Ubitrack
